import Mathlib

/-!
# Verification of the rtc-taskqueue scheduler (src/index.js)

Shallow embedding of the task-queue core: the managed resource (`PC`),
tasks, readiness checks, the dynamic priority comparator (`orderTasks`),
the poll step (`checkQueue`), the settlement continuation, and the two
execution strategies (`applyCandidate`, `execMethod`).

The embedding is line-by-line faithful to `src/index.js`:
  * JS numbers used as ranks are `Int` (they stay small integers).
  * Side effects (invoking handlers, arming the timer, logging, calling
    into the resource) are reified as explicit event traces, in the order
    the source performs them.
  * `priorityqueuejs` is a max-queue for its comparator: `peek`/`deq`
    return an element maximal for the comparator, i.e. of minimal
    computed rank; ties are implementation-defined, modelled here as
    first-minimal.
-/

/-- The managed resource (`RTCPeerConnection`-like object `pc`): its
signaling state, the recorded descriptions (`none` models JS `null`),
and the names of properties that are functions (`typeof pc[name] ==
'function'`). -/
structure PC where
  signalingState : String
  localDescription : Option String
  remoteDescription : Option String
  methods : List String
deriving DecidableEq

/-- From src/index.js line 8. -/
def PRIORITY_LOW : Int := 100

/-- From src/index.js line 9. -/
def PRIORITY_WAIT : Int := 1000

/-- From src/index.js lines 12-18: default static priority table (lower index
is better). -/
def DEFAULT_PRIORITIES : List String :=
  ["candidate", "setLocalDescription", "setRemoteDescription",
   "createAnswer", "createOffer"]

/-- From src/index.js lines 190-192: `pc.localDescription !== null ||
pc.remoteDescription !== null`. -/
def hasLocalOrRemoteDescription (pc : PC) : Bool :=
  pc.localDescription.isSome || pc.remoteDescription.isSome

/-- From src/index.js lines 194-196. -/
def isNotNegotiating (pc : PC) : Bool :=
  pc.signalingState != "have-local-offer"

/-- From src/index.js lines 198-200. -/
def isNotClosed (pc : PC) : Bool :=
  pc.signalingState != "closed"

/-- From src/index.js lines 202-204. -/
def isStable (pc : PC) : Bool :=
  pc.signalingState == "stable"

/-- Names for the readiness-check predicates wired by the façade
registrations (lines 232-254). A task's `checks` array holds these. -/
inductive Check where
  | hasLocalOrRemoteDescription
  | isNotNegotiating
  | isNotClosed
  | isStable
deriving DecidableEq

/-- Evaluate a named check against the resource (each check ignores the
task argument in the source). -/
def runCheck : Check → PC → Bool
  | .hasLocalOrRemoteDescription, pc => hasLocalOrRemoteDescription pc
  | .isNotNegotiating, pc => isNotNegotiating pc
  | .isNotClosed, pc => isNotClosed pc
  | .isStable, pc => isStable pc

/-- The two execution strategies wired as task bodies (`applyCandidate`
and `execMethod`). -/
inductive Strategy where
  | applyCand
  | execM
deriving DecidableEq

/-- A queued task, as built by `enqueue` (src/index.js lines 157-169):
name, snapshotted args (kept abstract), checks, body strategy, and the
presence of the optional `pass` / `fail` handlers. -/
structure QTask where
  name : String
  args : List String
  checks : List Check
  fn : Strategy
  hasPass : Bool
  hasFail : Bool
deriving DecidableEq

/-- From src/index.js lines 220-224: `(task.checks || []).reduce(function
(memo, check) \x7b return memo && check(pc, task); \x7d, true)`. -/
def testReady (pc : PC) (task : QTask) : Bool :=
  task.checks.foldl (fun memo check => memo && runCheck check pc) true

/-- JS `Array.prototype.indexOf`: index of the first occurrence, `-1`
when absent. -/
def jsIndexOf (l : List String) (s : String) : Int :=
  match l with
  | [] => -1
  | x :: xs =>
      if x = s then 0
      else
        let r := jsIndexOf xs s
        if r = -1 then -1 else r + 1

/-- The rank one task gets inside `orderTasks` (src/index.js lines
210-214): `args[1] ? (priority >= 0 ? priority : PRIORITY_LOW) :
PRIORITY_WAIT` where `priority = priorities.indexOf(args[0].name)` and
`args[1]` is the task's readiness. -/
def taskPriority (priorities : List String) (pc : PC) (t : QTask) : Int :=
  let priority := jsIndexOf priorities t.name
  if testReady pc t then (if priority ≥ 0 then priority else PRIORITY_LOW)
  else PRIORITY_WAIT

/-- From src/index.js lines 206-217: the comparator handed to
`priorityqueuejs`. Returns `taskPriorities[1] - taskPriorities[0]`;
a positive result means `a` is "greater" for the max-queue, i.e. `a`
is dequeued ahead of `b`. -/
def orderTasks (priorities : List String) (pc : PC) (a b : QTask) : Int :=
  taskPriority priorities pc b - taskPriority priorities pc a

/-- Model of `queue.deq()` of `priorityqueuejs` under comparator
`orderTasks priorities pc`: removes and returns an element maximal for
the comparator (minimal `taskPriority`), first such on ties. Returns the
element and the remaining queue; `none` on an empty queue. -/
def deqBest (priorities : List String) (pc : PC) :
    List QTask → Option (QTask × List QTask)
  | [] => none
  | t :: rest =>
      match deqBest priorities pc rest with
      | none => some (t, [])
      | some (u, rest2) =>
          if 0 ≤ orderTasks priorities pc t u then some (t, rest)
          else some (u, t :: rest2)

/-- Model of `queue.peek()`: the element `deq` would return, without removal. -/
def peekBest (priorities : List String) (pc : PC) (q : List QTask) :
    Option QTask :=
  (deqBest priorities pc q).map Prod.fst

/-- Scheduler-owned mutable state: the pending queue and the
single-flight slot (`currentTask`). -/
structure QState where
  queue : List QTask
  current : Option QTask
deriving DecidableEq

/-- What one `checkQueue()` invocation does besides updating the state:
nothing, re-arm the retry timer (`triggerQueueCheck(100)`), or promote a
task into the slot and run its body. -/
inductive PollAct where
  | idle
  | retry (delay : Nat)
  | run (t : QTask)
deriving DecidableEq

/-- From src/index.js lines 83-99 (one poll, up to the point the task body is
invoked): peek when the queue is non-empty and the slot is free; if the
peeked task is not ready, re-arm the 100ms retry iff the queue is
non-empty and the resource is not closed (line 87, line 92-94);
otherwise dequeue it into the slot and run it (lines 97-101). -/
def checkQueue (priorities : List String) (pc : PC) (s : QState) :
    QState × PollAct :=
  let retry := !s.queue.isEmpty && isNotClosed pc
  match (if s.queue.isEmpty || s.current.isSome then none
         else deqBest priorities pc s.queue) with
  | some (t, rest) =>
      if testReady pc t then
        ({ queue := rest, current := some t }, PollAct.run t)
      else (s, if retry then PollAct.retry 100 else PollAct.idle)
  | none => (s, if retry then PollAct.retry 100 else PollAct.idle)

/-- Observable actions of the settlement continuation (src/index.js
lines 101-119), in source order. `callFail toTaskHandler err`: the fail
path ran, through the task's own `fail` handler when `toTaskHandler`,
else through `defaultFail` (the `fail` event sink). -/
inductive Ev where
  | clearSlot
  | logError (err : String)
  | callFail (toTaskHandler : Bool) (err : String)
  | callPass
  | armTimer (delay : Nat)
deriving DecidableEq

/-- From src/index.js lines 101-119, the continuation passed to the task
body: capture `fail = currentTask.fail || defaultFail` and
`pass = currentTask.pass`, set `currentTask = null`, then on error
`console.error(err); return fail(err)`, otherwise run `pass` when it is
a function and `triggerQueueCheck()` (which arms the timer with the
default 5ms delay). -/
def continuationTrace (t : QTask) (err : Option String) : List Ev :=
  Ev.clearSlot ::
    (match err with
     | some e => [Ev.logError e, Ev.callFail t.hasFail e]
     | none => (if t.hasPass then [Ev.callPass] else []) ++ [Ev.armTimer 5])

/-- The value of the single-flight slot after replaying a prefix of a
settlement trace, starting from `cur` (the settled task occupies the
slot when the continuation begins). -/
def slotAfter (cur : Option QTask) : List Ev → Option QTask
  | [] => cur
  | Ev.clearSlot :: rest => slotAfter none rest
  | _ :: rest => slotAfter cur rest

/-- A candidate-like payload as `applyCandidate` inspects it: the
truthiness of its `srcElement` property and its `candidate` property
(`empty` = falsy/absent `candidate`, `full` = truthy `candidate`,
recursively a payload, covering the event-wrapper case). A missing
first argument (JS `undefined`) is outside this type: dereferencing it
throws before the embedded logic starts. -/
inductive CandPayload where
  | empty (srcElement : Bool)
  | full (srcElement : Bool) (candidate : CandPayload)
deriving DecidableEq

/-- From src/index.js lines 62-65: `if (data.srcElement && data.candidate)
data = data.candidate`. -/
def unwrapData : CandPayload → CandPayload
  | .full true c => c
  | d => d

/-- Observable actions of the candidate-application strategy:
`attemptApply` = the `try` block ran (`createIceCandidate(data)` then
`pc.addIceCandidate(candidate)`), `warn` = `console.warn` in the
`catch`, `next err` = the continuation was invoked with `err`. -/
inductive CandEv where
  | attemptApply
  | warn
  | next (err : Option String)
deriving DecidableEq

/-- From src/index.js lines 58-81, `applyCandidate(task, next)` on
`data = task.args[0]`: unwrap an event wrapper; if `!data.candidate`
return `next()` at once; otherwise construct and apply the candidate,
catching (and only logging) any throw, then `next()`. Whether the
construction/application throws depends on the external constructor and
resource, abstracted as the oracle `throws`. -/
def applyCandidate (throws : CandPayload → Bool) (data0 : CandPayload) :
    List CandEv :=
  match unwrapData data0 with
  | .empty _ => [CandEv.next none]
  | .full se c =>
      if throws (.full se c) then
        [CandEv.attemptApply, CandEv.warn, CandEv.next none]
      else [CandEv.attemptApply, CandEv.next none]

/-- From src/index.js line 183: the error message of the unsupported
operation failure. -/
def unsupportedMsg (name : String) : String :=
  "cannot call \"" ++ name ++ "\" on RTCPeerConnection"

/-- Observable actions of the direct-invocation strategy: invoke the
named resource method (its own asynchronous outcome then reaches the
continuation through the `success`/`next` handles), or invoke the
continuation directly. -/
inductive MethodEv where
  | invoke (name : String)
  | next (err : Option String)
deriving DecidableEq

/-- From src/index.js lines 175-188, `execMethod(task, next)`: look up
`pc[task.name]`; if it is not a function, `next(new Error(...))`
immediately; otherwise invoke it with the task's args plus the
`success`/`next` handles. -/
def execMethod (pc : PC) (t : QTask) : List MethodEv :=
  if !(pc.methods.contains t.name) then
    [MethodEv.next (some (unsupportedMsg t.name))]
  else [MethodEv.invoke t.name]

/-- From src/index.js lines 232-234: tasks built by `tq.addIceCandidate`. -/
def addIceCandidateTask (args : List String) : QTask :=
  { name := "addIceCandidate", args := args,
    checks := [Check.hasLocalOrRemoteDescription],
    fn := Strategy.applyCand, hasPass := false, hasFail := false }

/-- From src/index.js lines 236-238: tasks built by `tq.setLocalDescription`
(`pass` is `emitSdp`). -/
def setLocalDescriptionTask (args : List String) : QTask :=
  { name := "setLocalDescription", args := args, checks := [],
    fn := Strategy.execM, hasPass := true, hasFail := false }

/-- From src/index.js lines 240-244: tasks built by `tq.setRemoteDescription`
(`pass` is `completeConnection`). -/
def setRemoteDescriptionTask (args : List String) : QTask :=
  { name := "setRemoteDescription", args := args,
    checks := [Check.isNotClosed],
    fn := Strategy.execM, hasPass := true, hasFail := false }

/-- From src/index.js lines 246-249: tasks built by `tq.createOffer`
(`pass` is `tq.setLocalDescription`). -/
def createOfferTask (args : List String) : QTask :=
  { name := "createOffer", args := args,
    checks := [Check.isNotClosed, Check.isNotNegotiating],
    fn := Strategy.execM, hasPass := true, hasFail := false }

/-- From src/index.js lines 251-254: tasks built by `tq.createAnswer`
(`pass` is `tq.setLocalDescription`). -/
def createAnswerTask (args : List String) : QTask :=
  { name := "createAnswer", args := args, checks := [Check.isNotClosed],
    fn := Strategy.execM, hasPass := true, hasFail := false }

/-- A resource already in its terminal state. -/
def closedPC : PC :=
  { signalingState := "closed", localDescription := none,
    remoteDescription := none, methods := [] }

/-- A resource in the stable state with a local description recorded. -/
def stablePC : PC :=
  { signalingState := "stable", localDescription := some "sdp",
    remoteDescription := none,
    methods := ["setLocalDescription", "setRemoteDescription",
                "createOffer", "createAnswer", "addIceCandidate"] }

/-- A task named "createOffer" with no checks (vacuously ready in every
state), as a caller could enqueue through a custom wiring. -/
def readyOfferTask : QTask :=
  { name := "createOffer", args := [], checks := [],
    fn := Strategy.execM, hasPass := false, hasFail := false }

/-- A task named "addIceCandidate" with no checks (vacuously ready). -/
def readyIceTask : QTask :=
  { name := "addIceCandidate", args := [], checks := [],
    fn := Strategy.applyCand, hasPass := false, hasFail := false }

/-- A custom priority table with 1001 entries: "createOffer" is listed
at index 1000, i.e. its listed rank equals `PRIORITY_WAIT`. -/
def bigTable : List String := List.replicate 1000 "pad" ++ ["createOffer"]

/-- A custom priority table with 101 entries: "createOffer" is listed at
index 100, i.e. its listed rank equals `PRIORITY_LOW`. -/
def mediumTable : List String := List.replicate 100 "pad" ++ ["createOffer"]

/-! ## Helper lemmas -/

theorem foldl_and_eq (pc : PC) (l : List Check) (b : Bool) :
    l.foldl (fun memo check => memo && runCheck check pc) b =
      (b && l.all (fun c => runCheck c pc)) := by
  induction l generalizing b with
  | nil => simp
  | cons c cs ih => simp [List.foldl_cons, ih, Bool.and_assoc]

theorem testReady_eq_all (pc : PC) (t : QTask) :
    testReady pc t = t.checks.all (fun c => runCheck c pc) := by
  simp [testReady, foldl_and_eq]

theorem testReady_false_of_check (pc : PC) (t : QTask) (c : Check)
    (hmem : c ∈ t.checks) (hc : runCheck c pc = false) :
    testReady pc t = false := by
  rw [testReady_eq_all, List.all_eq_false]
  exact ⟨c, hmem, by simp [hc]⟩

theorem jsIndexOf_lt_length (l : List String) (s : String) :
    jsIndexOf l s < (l.length : Int) := by
  induction l with
  | nil => simp [jsIndexOf]
  | cons x xs ih =>
      simp only [jsIndexOf, List.length_cons]
      split
      · push_cast; omega
      · split <;> push_cast <;> omega

theorem jsIndexOf_nonneg_of_mem {l : List String} {s : String}
    (h : s ∈ l) : 0 ≤ jsIndexOf l s := by
  induction l with
  | nil => simp at h
  | cons x xs ih =>
      simp only [jsIndexOf]
      split
      · omega
      · rename_i hne
        have hs : s ∈ xs := by
          rcases List.mem_cons.mp h with h1 | h1
          · exact absurd h1.symm hne
          · exact h1
        have := ih hs
        split <;> omega

theorem jsIndexOf_of_not_mem {l : List String} {s : String}
    (h : s ∉ l) : jsIndexOf l s = -1 := by
  induction l with
  | nil => simp [jsIndexOf]
  | cons x xs ih =>
      simp only [List.mem_cons, not_or] at h
      simp only [jsIndexOf]
      rw [if_neg (fun he => h.1 he.symm), ih h.2]
      simp

theorem jsIndexOf_replicate_append (s pad : String) (h : pad ≠ s) :
    ∀ n : Nat, jsIndexOf (List.replicate n pad ++ [s]) s = n := by
  intro n
  induction n with
  | zero => simp [jsIndexOf]
  | succ k ih =>
      rw [List.replicate_succ, List.cons_append]
      simp only [jsIndexOf]
      rw [if_neg h, ih]
      have : (k : Int) ≠ -1 := by omega
      rw [if_neg this]
      push_cast
      ring

theorem taskPriority_of_unready {pc : PC} {t : QTask}
    (h : testReady pc t = false) (priorities : List String) :
    taskPriority priorities pc t = PRIORITY_WAIT := by
  simp [taskPriority, h]

theorem taskPriority_lt_wait_of_ready {priorities : List String} {pc : PC}
    {t : QTask} (hlen : priorities.length ≤ 1000)
    (h : testReady pc t = true) :
    taskPriority priorities pc t < PRIORITY_WAIT := by
  have hidx := jsIndexOf_lt_length priorities t.name
  simp only [taskPriority, h, if_true, PRIORITY_WAIT, PRIORITY_LOW]
  split <;> omega

theorem taskPriority_of_ready_unlisted {priorities : List String} {pc : PC}
    {t : QTask} (hmem : t.name ∉ priorities) (h : testReady pc t = true) :
    taskPriority priorities pc t = PRIORITY_LOW := by
  have := jsIndexOf_of_not_mem hmem
  simp [taskPriority, h, this, PRIORITY_LOW]

theorem taskPriority_of_ready_listed {priorities : List String} {pc : PC}
    {t : QTask} (hmem : t.name ∈ priorities) (h : testReady pc t = true) :
    taskPriority priorities pc t = jsIndexOf priorities t.name := by
  have := jsIndexOf_nonneg_of_mem hmem
  simp [taskPriority, h, this]

theorem slotAfter_none (l : List Ev) : slotAfter none l = none := by
  induction l with
  | nil => rfl
  | cons x rest ih => cases x <;> simpa [slotAfter] using ih

theorem slotAfter_clearSlot_cons (cur : Option QTask) (l : List Ev) :
    slotAfter cur (Ev.clearSlot :: l) = slotAfter none l := rfl

/-! ## Claim theorems -/

/-- Claim C10: for all tasks `a` and `b` evaluated against the same
resource state, the comparator is antisymmetric:
`orderTasks a b = -(orderTasks b a)`, and `orderTasks a a = 0`. -/
theorem orderTasks_antisymm (priorities : List String) (pc : PC)
    (a b : QTask) :
    orderTasks priorities pc a b = - orderTasks priorities pc b a ∧
    orderTasks priorities pc a a = 0 := by
  unfold orderTasks
  constructor <;> ring

/-- Claim C3: when the continuation reports an error, the single-flight
slot is vacated, the task's fail handler (its own when present,
otherwise the default failure sink) is invoked with the error, the pass
handler is not invoked, and the poll trigger is not re-armed by this
settlement. -/
theorem error_settlement_no_rearm (t : QTask) (e : String) :
    continuationTrace t (some e) =
      [Ev.clearSlot, Ev.logError e, Ev.callFail t.hasFail e] ∧
    Ev.clearSlot ∈ continuationTrace t (some e) ∧
    Ev.callFail t.hasFail e ∈ continuationTrace t (some e) ∧
    Ev.callPass ∉ continuationTrace t (some e) ∧
    ∀ d : Nat, Ev.armTimer d ∉ continuationTrace t (some e) := by
  refine ⟨rfl, ?_, ?_, ?_, ?_⟩ <;> simp [continuationTrace]

/-- Claim C4: whenever the continuation is invoked (success or error),
the single-flight slot is cleared before any pass or fail handler runs:
at every trace position holding a pass or fail invocation, replaying the
preceding events has already emptied the slot. -/
theorem slot_cleared_before_handlers (t : QTask) (err : Option String)
    (i : Nat) (e : Ev)
    (hget : (continuationTrace t err)[i]? = some e)
    (he : e = Ev.callPass ∨ ∃ b s, e = Ev.callFail b s) :
    slotAfter (some t) ((continuationTrace t err).take i) = none := by
  have hne : i ≠ 0 := by
    intro h0
    subst h0
    have h00 : (continuationTrace t err)[0]? = some Ev.clearSlot := by
      simp [continuationTrace]
    rw [h00] at hget
    have : e = Ev.clearSlot := (Option.some_inj.mp hget).symm
    rcases he with h | ⟨b, s, h⟩ <;> simp [this] at h
  obtain ⟨j, rfl⟩ : ∃ j, i = j + 1 := ⟨i - 1, by omega⟩
  obtain ⟨rest, hrest⟩ : ∃ rest, continuationTrace t err = Ev.clearSlot :: rest :=
    ⟨_, rfl⟩
  rw [hrest, List.take_succ_cons, slotAfter_clearSlot_cons]
  exact slotAfter_none _

/-- Claim C4 witness: a settled task with a pass handler; at the trace
position invoking the pass handler the slot is already empty. -/
theorem slot_cleared_before_handlers_witness :
    slotAfter (some (setLocalDescriptionTask []))
      ((continuationTrace (setLocalDescriptionTask []) none).take 1) = none :=
  slot_cleared_before_handlers (setLocalDescriptionTask []) none 1
    Ev.callPass (by decide) (Or.inl rfl)

/-- Claim C5: for every payload, if candidate construction / application
throws, the error is logged (`console.warn`) and swallowed and the
continuation is still invoked with success; the strategy never invokes
the continuation with an error for any input. -/
theorem applyCandidate_swallows_errors (throws : CandPayload → Bool)
    (d : CandPayload) :
    (∀ e : String, CandEv.next (some e) ∉ applyCandidate throws d) ∧
    (∀ se c, unwrapData d = CandPayload.full se c →
      throws (unwrapData d) = true →
      applyCandidate throws d =
        [CandEv.attemptApply, CandEv.warn, CandEv.next none]) := by
  rcases h : unwrapData d with ⟨se⟩ | ⟨se, c⟩
  · refine ⟨?_, ?_⟩
    · intro e
      simp [applyCandidate, h]
    · intro se2 c2 heq
      cases heq
  · refine ⟨?_, ?_⟩
    · intro e
      by_cases ht : throws (CandPayload.full se c) <;>
        simp [applyCandidate, h, ht]
    · intro se2 c2 heq hth
      simp [applyCandidate, h, hth]

/-- Claim C5 witness: a non-sentinel payload whose
construction/application throws; the throw is swallowed and success is
reported. -/
theorem applyCandidate_swallows_errors_witness :
    applyCandidate (fun _ => true)
        (CandPayload.full false (CandPayload.empty false)) =
      [CandEv.attemptApply, CandEv.warn, CandEv.next none] :=
  (applyCandidate_swallows_errors (fun _ => true)
    (CandPayload.full false (CandPayload.empty false))).2
    false (CandPayload.empty false) rfl rfl

/-- Claim C6: for every payload carrying the end-of-candidates sentinel
(falsy `candidate` field after unwrapping), the strategy invokes the
continuation with success immediately, without attempting any operation
on the resource (and the taken path has no throwing step). -/
theorem applyCandidate_sentinel (throws : CandPayload → Bool)
    (d : CandPayload) (se : Bool)
    (h : unwrapData d = CandPayload.empty se) :
    applyCandidate throws d = [CandEv.next none] ∧
    CandEv.attemptApply ∉ applyCandidate throws d ∧
    CandEv.warn ∉ applyCandidate throws d := by
  refine ⟨?_, ?_, ?_⟩ <;> simp [applyCandidate, h]

/-- Claim C6 witness: the plain sentinel payload. -/
theorem applyCandidate_sentinel_witness :
    applyCandidate (fun _ => true) (CandPayload.empty false) =
      [CandEv.next none] :=
  (applyCandidate_sentinel (fun _ => true) (CandPayload.empty false)
    false rfl).1

/-- Claim C7: for every task run by the direct invocation strategy whose
name is not a function-valued property of the resource, the strategy
invokes the continuation immediately with the unsupported-operation
error and calls no resource operation; the resulting error settlement
arms no timer (the task, already dequeued, is never retried). -/
theorem execMethod_unsupported_operation (pc : PC) (t : QTask)
    (h : pc.methods.contains t.name = false) :
    execMethod pc t = [MethodEv.next (some (unsupportedMsg t.name))] ∧
    (∀ n : String, MethodEv.invoke n ∉ execMethod pc t) ∧
    ∀ d : Nat,
      Ev.armTimer d ∉ continuationTrace t (some (unsupportedMsg t.name)) := by
  have h2 : t.name ∉ pc.methods := by simpa using h
  refine ⟨?_, ?_, ?_⟩
  · simp [execMethod, h2]
  · intro n
    simp [execMethod, h2]
  · intro d
    simp [continuationTrace]

/-- Claim C7 witness: a createOffer task against a resource with no
function-valued properties. -/
theorem execMethod_unsupported_operation_witness :
    execMethod closedPC (createOfferTask []) =
      [MethodEv.next (some (unsupportedMsg "createOffer"))] :=
  (execMethod_unsupported_operation closedPC (createOfferTask [])
    (by decide)).1

/-- Claim C9: under the default priority table, a ready task enqueued by
the public `addIceCandidate` operation gets the default rank
`PRIORITY_LOW` (its task name "addIceCandidate" is not in the table,
which lists "candidate"), so every ready task built by the other four
registered operations is ordered strictly ahead of it. -/
theorem addIceCandidate_default_rank (pc : PC) (aArgs uArgs : List String)
    (u : QTask)
    (hu : u = setLocalDescriptionTask uArgs ∨
          u = setRemoteDescriptionTask uArgs ∨
          u = createOfferTask uArgs ∨ u = createAnswerTask uArgs)
    (ha : testReady pc (addIceCandidateTask aArgs) = true)
    (hur : testReady pc u = true) :
    taskPriority DEFAULT_PRIORITIES pc (addIceCandidateTask aArgs) =
      PRIORITY_LOW ∧
    taskPriority DEFAULT_PRIORITIES pc u < PRIORITY_LOW ∧
    0 < orderTasks DEFAULT_PRIORITIES pc u (addIceCandidateTask aArgs) := by
  have hnot : (addIceCandidateTask aArgs).name ∉ DEFAULT_PRIORITIES := by
    show "addIceCandidate" ∉ DEFAULT_PRIORITIES
    decide
  have h1 : taskPriority DEFAULT_PRIORITIES pc (addIceCandidateTask aArgs) =
      PRIORITY_LOW := taskPriority_of_ready_unlisted hnot ha
  have hlt : ∀ nm ∈ DEFAULT_PRIORITIES,
      jsIndexOf DEFAULT_PRIORITIES nm < PRIORITY_LOW := by decide
  have hmem : u.name ∈ DEFAULT_PRIORITIES := by
    rcases hu with h | h | h | h <;> subst h
    · show "setLocalDescription" ∈ DEFAULT_PRIORITIES
      decide
    · show "setRemoteDescription" ∈ DEFAULT_PRIORITIES
      decide
    · show "createOffer" ∈ DEFAULT_PRIORITIES
      decide
    · show "createAnswer" ∈ DEFAULT_PRIORITIES
      decide
  have h2 : taskPriority DEFAULT_PRIORITIES pc u < PRIORITY_LOW := by
    rw [taskPriority_of_ready_listed hmem hur]
    exact hlt u.name hmem
  refine ⟨h1, h2, ?_⟩
  unfold orderTasks
  rw [h1]
  omega

/-- Claim C9 witness: a ready addIceCandidate task (local description
recorded) against a ready setLocalDescription task, in the stable
state. -/
theorem addIceCandidate_default_rank_witness :
    taskPriority DEFAULT_PRIORITIES stablePC (addIceCandidateTask []) =
      PRIORITY_LOW ∧
    taskPriority DEFAULT_PRIORITIES stablePC (setLocalDescriptionTask []) <
      PRIORITY_LOW ∧
    0 < orderTasks DEFAULT_PRIORITIES stablePC (setLocalDescriptionTask [])
        (addIceCandidateTask []) :=
  addIceCandidate_default_rank stablePC [] [] (setLocalDescriptionTask [])
    (Or.inl rfl) (by decide) (by decide)

/-- Claim C1 counterexample: with a 1001-entry priority table listing
"createOffer" at index 1000, a ready createOffer-named task and a
not-ready task both rank `PRIORITY_WAIT` = 1000, so the comparator does
not rank the ready task strictly ahead. -/
theorem ready_beats_unready_cex :
    testReady closedPC readyOfferTask = true ∧
    testReady closedPC (setRemoteDescriptionTask []) = false ∧
    ¬ (0 < orderTasks bigTable closedPC readyOfferTask
          (setRemoteDescriptionTask [])) := by
  have hidx : jsIndexOf bigTable "createOffer" = 1000 := by
    have h := jsIndexOf_replicate_append "createOffer" "pad" (by decide) 1000
    rw [bigTable]
    exact_mod_cast h
  have hA : testReady closedPC readyOfferTask = true := by decide
  have hB : testReady closedPC (setRemoteDescriptionTask []) = false := by
    decide
  have hname : readyOfferTask.name = "createOffer" := rfl
  have h1 : taskPriority bigTable closedPC readyOfferTask = 1000 := by
    simp only [taskPriority, hA, if_true, hname, hidx]
    norm_num
  have h2 : taskPriority bigTable closedPC (setRemoteDescriptionTask []) =
      1000 := taskPriority_of_unready hB bigTable
  refine ⟨hA, hB, ?_⟩
  simp only [orderTasks, h1, h2]
  omega

/-- Claim C1 (amended): for any two pending tasks evaluated against the
same resource state, a ready task is ranked strictly ahead of a
not-ready one regardless of static priority, for every priority table
of at most `PRIORITY_WAIT` = 1000 entries (in particular the default
five-entry table); hence the ready task is peeked, and so dequeued,
first. -/
theorem ready_beats_unready (priorities : List String) (pc : PC)
    (a b : QTask) (hlen : priorities.length ≤ 1000)
    (ha : testReady pc a = true) (hb : testReady pc b = false) :
    0 < orderTasks priorities pc a b ∧
    peekBest priorities pc [a, b] = some a ∧
    peekBest priorities pc [b, a] = some a := by
  have h1 : taskPriority priorities pc a < PRIORITY_WAIT :=
    taskPriority_lt_wait_of_ready hlen ha
  have h2 : taskPriority priorities pc b = PRIORITY_WAIT :=
    taskPriority_of_unready hb priorities
  have hord : 0 < orderTasks priorities pc a b := by
    simp only [orderTasks, h2]
    omega
  have hneg : ¬ (0 ≤ orderTasks priorities pc b a) := by
    simp only [orderTasks, h2]
    omega
  refine ⟨hord, ?_, ?_⟩
  · simp only [peekBest, deqBest]
    rw [if_pos (le_of_lt hord)]
    rfl
  · simp only [peekBest, deqBest]
    rw [if_neg hneg]
    rfl

/-- Claim C1 witness: under the default table and a closed resource, a
ready setLocalDescription task beats a not-ready setRemoteDescription
task. -/
theorem ready_beats_unready_witness :
    0 < orderTasks DEFAULT_PRIORITIES closedPC (setLocalDescriptionTask [])
        (setRemoteDescriptionTask []) ∧
    peekBest DEFAULT_PRIORITIES closedPC
        [setLocalDescriptionTask [], setRemoteDescriptionTask []] =
      some (setLocalDescriptionTask []) ∧
    peekBest DEFAULT_PRIORITIES closedPC
        [setRemoteDescriptionTask [], setLocalDescriptionTask []] =
      some (setLocalDescriptionTask []) :=
  ready_beats_unready DEFAULT_PRIORITIES closedPC
    (setLocalDescriptionTask []) (setRemoteDescriptionTask [])
    (by decide) (by decide) (by decide)

/-- Claim C2 counterexample: a setRemoteDescription task pending while
the resource is closed. The poll leaves the state unchanged and arms
nothing: the act is `idle`, not `retry 100` — the retry timer does not
keep firing. -/
theorem closed_retry_cex :
    checkQueue DEFAULT_PRIORITIES closedPC
        ⟨[setRemoteDescriptionTask []], none⟩ =
      (⟨[setRemoteDescriptionTask []], none⟩, PollAct.idle) ∧
    (checkQueue DEFAULT_PRIORITIES closedPC
        ⟨[setRemoteDescriptionTask []], none⟩).2 ≠ PollAct.retry 100 := by
  refine ⟨by decide, by decide⟩

/-- Claim C2 (amended): if a set-remote-description task is pending
while the resource's signaling state is already "closed", its readiness
check never passes and the task remains pending forever; but the poll
arms no retry timer at all (the act is `idle`, never `retry`), so
polling stops until a later enqueue, and the task is never executed. -/
theorem closed_pending_forever (priorities : List String) (pc : PC)
    (hclosed : pc.signalingState = "closed") (t : QTask)
    (hc : Check.isNotClosed ∈ t.checks) :
    testReady pc t = false ∧
    checkQueue priorities pc ⟨[t], none⟩ = (⟨[t], none⟩, PollAct.idle) ∧
    ∀ n : Nat, (fun s => (checkQueue priorities pc s).1)^[n] ⟨[t], none⟩ =
      ⟨[t], none⟩ := by
  have hnc : isNotClosed pc = false := by
    simp [isNotClosed, hclosed]
  have hr : testReady pc t = false :=
    testReady_false_of_check pc t Check.isNotClosed hc
      (by simp [runCheck, hnc])
  have hstep : checkQueue priorities pc ⟨[t], none⟩ =
      (⟨[t], none⟩, PollAct.idle) := by
    simp [checkQueue, deqBest, hr, hnc]
  refine ⟨hr, hstep, ?_⟩
  intro n
  induction n with
  | zero => rfl
  | succ k ih =>
      rw [Function.iterate_succ_apply', ih, hstep]

/-- Claim C2 witness: the concrete scenario of the counterexample,
obtained from the amended theorem. -/
theorem closed_pending_forever_witness :
    testReady closedPC (setRemoteDescriptionTask []) = false ∧
    checkQueue DEFAULT_PRIORITIES closedPC
        ⟨[setRemoteDescriptionTask []], none⟩ =
      (⟨[setRemoteDescriptionTask []], none⟩, PollAct.idle) :=
  ⟨(closed_pending_forever DEFAULT_PRIORITIES closedPC rfl
      (setRemoteDescriptionTask []) (by decide)).1,
   (closed_pending_forever DEFAULT_PRIORITIES closedPC rfl
      (setRemoteDescriptionTask []) (by decide)).2.1⟩

/-- Claim C8 counterexample: with a 101-entry priority table listing
"createOffer" at index 100, a ready listed createOffer task and a ready
unlisted addIceCandidate task both rank `PRIORITY_LOW` = 100: the
unlisted ready task's rank is not strictly worse than every listed
ready task's rank. -/
theorem default_rank_cex :
    testReady closedPC readyIceTask = true ∧
    readyIceTask.name ∉ mediumTable ∧
    testReady closedPC readyOfferTask = true ∧
    readyOfferTask.name ∈ mediumTable ∧
    ¬ (taskPriority mediumTable closedPC readyOfferTask <
        taskPriority mediumTable closedPC readyIceTask) := by
  have hidx : jsIndexOf mediumTable "createOffer" = 100 := by
    have h := jsIndexOf_replicate_append "createOffer" "pad" (by decide) 100
    rw [mediumTable]
    exact_mod_cast h
  have hA : testReady closedPC readyIceTask = true := by decide
  have hO : testReady closedPC readyOfferTask = true := by decide
  have hnm : readyIceTask.name ∉ mediumTable := by
    show "addIceCandidate" ∉ mediumTable
    simp [mediumTable, List.mem_replicate]
  have hom : readyOfferTask.name ∈ mediumTable := by
    show "createOffer" ∈ mediumTable
    simp [mediumTable]
  have h1 : taskPriority mediumTable closedPC readyIceTask = PRIORITY_LOW :=
    taskPriority_of_ready_unlisted hnm hA
  have hname : readyOfferTask.name = "createOffer" := rfl
  have h2 : taskPriority mediumTable closedPC readyOfferTask = 100 := by
    simp only [taskPriority, hO, if_true, hname, hidx]
    norm_num
  refine ⟨hA, hnm, hO, hom, ?_⟩
  rw [h1, h2, PRIORITY_LOW]
  omega

/-- Claim C8 (amended): for every priority table of at most
`PRIORITY_LOW` = 100 entries (in particular the default five-entry
table), a ready task whose name is absent from the table ranks exactly
`PRIORITY_LOW`: strictly lower (better) than the `PRIORITY_WAIT` rank
of any not-ready task, and strictly higher (worse) than the rank of
every ready task whose name is listed. -/
theorem default_rank_between (priorities : List String) (pc : PC)
    (t u w : QTask) (hlen : priorities.length ≤ 100)
    (ht : testReady pc t = true) (hmem : t.name ∉ priorities)
    (hu : testReady pc u = true) (humem : u.name ∈ priorities)
    (hw : testReady pc w = false) :
    taskPriority priorities pc t = PRIORITY_LOW ∧
    taskPriority priorities pc t < taskPriority priorities pc w ∧
    taskPriority priorities pc u < taskPriority priorities pc t := by
  have h1 := taskPriority_of_ready_unlisted hmem ht
  have h2 := taskPriority_of_unready hw priorities
  have h3 := taskPriority_of_ready_listed humem hu
  have h4 : jsIndexOf priorities u.name < (priorities.length : Int) :=
    jsIndexOf_lt_length priorities u.name
  have h5 : (priorities.length : Int) ≤ 100 := by exact_mod_cast hlen
  refine ⟨h1, ?_, ?_⟩
  · rw [h1, h2, PRIORITY_LOW, PRIORITY_WAIT]
    omega
  · rw [h1, h3, PRIORITY_LOW]
    omega

/-- Claim C8 witness: default table, ready unlisted addIceCandidate
task, ready listed createOffer task, not-ready setRemoteDescription
task. -/
theorem default_rank_between_witness :
    taskPriority DEFAULT_PRIORITIES closedPC readyIceTask = PRIORITY_LOW ∧
    taskPriority DEFAULT_PRIORITIES closedPC readyIceTask <
      taskPriority DEFAULT_PRIORITIES closedPC (setRemoteDescriptionTask []) ∧
    taskPriority DEFAULT_PRIORITIES closedPC readyOfferTask <
      taskPriority DEFAULT_PRIORITIES closedPC readyIceTask :=
  default_rank_between DEFAULT_PRIORITIES closedPC readyIceTask
    readyOfferTask (setRemoteDescriptionTask []) (by decide) (by decide)
    (by decide) (by decide) (by decide) (by decide)
